import Mathlib

set_option maxRecDepth 100000

/-!
Verification of `junit-report.py`: a script that parses a JUnit XML test
report and publishes failure information through four sinks (console text,
CI annotations, a step-summary file, a PR comment), then sets the process
exit status.

The embedding models the XML document as a tree of elements, the script's
`main` as a pure function from an environment (argument vector, file state,
environment variables, subprocess world) to an exit status plus the
observable outputs (printed strings, summary-file append, attempted `gh`
subprocess calls).
-/

namespace JunitReport

/-- An XML element: tag, attribute list, optional body text, child elements.
Mirrors the view of `xml.etree.ElementTree` used by the script
(`tag`, `get`, `text`, child iteration). -/
inductive Elem where
  | mk (tag : String) (attrs : List (String × String)) (text : Option String)
      (children : List Elem)

def Elem.tag : Elem → String
  | .mk t _ _ _ => t

def Elem.attrs : Elem → List (String × String)
  | .mk _ a _ _ => a

def Elem.text : Elem → Option String
  | .mk _ _ x _ => x

def Elem.children : Elem → List Elem
  | .mk _ _ _ cs => cs

/-- `e.get(k)` on an ElementTree element: attribute lookup. -/
def Elem.attr (e : Elem) (k : String) : Option String :=
  e.attrs.lookup k

/-! ### Python string primitives

The script uses `str.strip`, `str.split` (one-character separators only),
`str.startswith`, `str.rstrip("/")` and `str.replace("|", "\\|")`. They are
modelled structurally over the character list of the string (whitespace is
the ASCII whitespace of `Char.isWhitespace`). -/

/-- Python `s.strip()`: remove leading and trailing whitespace. -/
def pyStrip (s : String) : String :=
  ⟨((s.data.dropWhile Char.isWhitespace).reverse.dropWhile
      Char.isWhitespace).reverse⟩

def pySplitAux (sep : Char) : List Char → List Char → List String
  | [], acc => [⟨acc.reverse⟩]
  | c :: cs, acc =>
    if c = sep then ⟨acc.reverse⟩ :: pySplitAux sep cs []
    else pySplitAux sep cs (c :: acc)

/-- Python `s.split(sep)` for a one-character separator: the segments
between occurrences of `sep`, keeping empty segments (`"".split(sep)` is
`[""]`). -/
def pySplit (s : String) (sep : Char) : List String :=
  pySplitAux sep s.data []

/-- Python `s.startswith(p)`. -/
def pyStartsWith (s p : String) : Bool :=
  p.data.isPrefixOf s.data

/-- Python `s.rstrip("/")`: remove trailing `/` characters. -/
def pyRstripSlashes (s : String) : String :=
  ⟨(s.data.reverse.dropWhile (fun c => c = '/')).reverse⟩

mutual
/-- `tree.iter(t)`: all elements of the subtree with tag `t`, in document
order (preorder, the element itself first). -/
def iterTag (t : String) : Elem → List Elem
  | .mk tag attrs text children =>
    (if tag = t then [Elem.mk tag attrs text children] else []) ++
      iterTagList t children

def iterTagList (t : String) : List Elem → List Elem
  | [] => []
  | c :: cs => iterTag t c ++ iterTagList t cs
end

/-- `tc.find(t)`: the first direct child with tag `t`. -/
def findChild (t : String) (e : Elem) : Option Elem :=
  e.children.find? (fun c => c.tag = t)

/-- Python truthiness filter for an optional string: `None` and `""` are
falsy. -/
def truthy : Option String → Option String
  | none => none
  | some s => if s = "" then none else some s

/-- The Python expression `a or b or ""` on two optional strings. -/
def pyOr (a b : Option String) : String :=
  match truthy a with
  | some s => s
  | none => (truthy b).getD ""

/-- The line filter of the short-message loop: a stripped line qualifies
when it is non-empty and starts with neither `=== RUN` nor `--- FAIL`. -/
def qualifying (line : String) : Bool :=
  line ≠ "" && !(pyStartsWith line "=== RUN") && !(pyStartsWith line "--- FAIL")

/-- The short-message loop: split the detail on newlines, strip each line,
and return the first qualifying line truncated to 200 characters, or `""`
when no line qualifies. -/
def firstShort (detail : String) : String :=
  match ((pySplit detail '\n').map pyStrip).find? qualifying with
  | some l => l.take 200
  | none => ""

/-- `short` as computed for a failure element `f` with detail text `detail`:
the first qualifying line, else `f.get("message", "failed")`. -/
def shortOf (f : Elem) (detail : String) : String :=
  let s := firstShort detail
  if s = "" then (f.attr "message").getD "failed" else s

/-- One extracted failure: package (`classname`), test name, short message,
full detail. The tuple `(pkg, name, short, detail)` of the script. -/
structure FailureRecord where
  pkg : String
  name : String
  short : String
  detail : String
deriving Repr, DecidableEq

/-- The record built from a test-case element `tc` and its failure child
`f`: `classname`/`name` attributes defaulting to `""`, detail from
`(f.text or f.get("message") or "").strip()`, short message per the loop. -/
def recordOf (tc f : Elem) : FailureRecord :=
  let pkg := (tc.attr "classname").getD ""
  let name := (tc.attr "name").getD ""
  let detail := pyStrip (pyOr f.text (f.attr "message"))
  let short := shortOf f detail
  ⟨pkg, name, short, detail⟩

/-- The extraction loop: for each `testcase` element in document order,
emit a record when it has a `failure` child. -/
def extract (root : Elem) : List FailureRecord :=
  (iterTag "testcase" root).filterMap
    (fun tc => (findChild "failure" tc).map (recordOf tc))

/-! ### Well-formed JUnit documents

The claim counting "N failure elements" presumes the JUnit shape: failure
markers occur only as direct children of test-case elements, at most one
per test case. -/

mutual
/-- Subtree well-formedness: a `testcase` element has at most one direct
`failure` child, any other element has none. -/
def junitWFAux : Elem → Bool
  | .mk tag _ _ children =>
    (if tag = "testcase"
     then children.countP (fun c => c.tag = "failure") ≤ 1
     else children.all (fun c => !(c.tag = "failure"))) &&
    junitWFList children

def junitWFList : List Elem → Bool
  | [] => true
  | c :: cs => junitWFAux c && junitWFList cs
end

/-- A well-formed JUnit document: the root is not itself a failure marker,
and every subtree satisfies `junitWFAux`. -/
def junitWF (e : Elem) : Bool :=
  !(e.tag = "failure") && junitWFAux e

/-! ### The four sinks -/

/-- The 60-character `=` border of the console header. -/
def border : String := String.mk (List.replicate 60 '=')

/-- Sink 1, console rendering: the exact sequence of `print` payloads
(header block, then per record a `FAIL` line, up to 15 indented detail
lines and a blank line, then the closing border). -/
def consoleLines (heading : String) (failures : List FailureRecord) :
    List String :=
  ["\n" ++ border,
   "  " ++ heading ++ ": " ++ toString failures.length ++ " failed",
   border ++ "\n"] ++
  failures.flatMap (fun r =>
    ("  FAIL  " ++ r.pkg ++ "." ++ r.name) ::
      ((pySplit r.detail '\n').take 15).map (fun l => "        " ++ l) ++
      [""]) ++
  [border ++ "\n"]

/-- Sink 2, CI annotations: one `print` payload per record, the
`::error` line with title `FAIL <pkg>.<name>` and body the short message. -/
def annotationLines (failures : List FailureRecord) : List String :=
  failures.map (fun r =>
    "::error title=FAIL " ++ r.pkg ++ "." ++ r.name ++ "::" ++ r.short)

/-- `short.replace("|", "\\|")`: escape table delimiters for Markdown. -/
def escapePipes (s : String) : String :=
  ⟨s.data.flatMap (fun c => if c = '|' then ['\\', '|'] else [c])⟩

/-- One Markdown table row of a failure record (shared by the summary file
and the PR comment body, each adds its own newline handling). -/
def tableRow (r : FailureRecord) : String :=
  "| `" ++ r.pkg ++ "` | `" ++ r.name ++ "` | " ++ escapePipes r.short ++ " |"

/-- Sink 3, step summary: the text appended to `$GITHUB_STEP_SUMMARY`
(heading, table header, one row per record). -/
def summaryContent (heading : String) (failures : List FailureRecord) :
    String :=
  "## " ++ heading ++ "\n\n" ++
  "| Package | Test | Error |\n" ++
  "|---------|------|-------|\n" ++
  String.join (failures.map (fun r => tableRow r ++ "\n"))

/-- The hidden marker identifying the PR comment of a given heading. -/
def commentMarker (heading : String) : String :=
  "<!-- junit-report: " ++ heading ++ " -->"

/-- The lines of the PR comment body. -/
def prBodyLines (heading : String) (failures : List FailureRecord) :
    List String :=
  [commentMarker heading,
   "## " ++ heading,
   "",
   "| Package | Test | Error |",
   "|---------|------|-------|"] ++
  failures.map tableRow ++
  ["", "_Updated by CI — this comment is replaced on each push._"]

/-- `body = "\n".join(body_lines)`. -/
def prBody (heading : String) (failures : List FailureRecord) : String :=
  String.intercalate "\n" (prBodyLines heading failures)

/-- Which of the `gh` subprocess invocations a call is. -/
inductive GhCallKind where
  | view | patch | comment
deriving Repr, DecidableEq

/-- One attempted `gh` subprocess invocation: argument vector and the
`timeout=` value passed to `subprocess.run`. -/
structure GhCall where
  kind : GhCallKind
  args : List String
  timeout : Nat
deriving Repr, DecidableEq

/-- Outcome of a `subprocess.run` call as the script can observe it:
a completed process with captured stdout (any exit code — the script never
checks it), or a raised exception (timeout, missing executable, ...). -/
inductive SubResult where
  | ok (stdout : String)
  | exc
deriving Repr, DecidableEq

/-- The subprocess world: the outcome each of the three possible `gh`
invocations would have if attempted. -/
structure GhEnv where
  view : SubResult
  patch : SubResult
  comment : SubResult
deriving Repr, DecidableEq

/-- The `--jq` filter selecting comments whose body starts with the
marker. -/
def jqFilter (marker : String) : String :=
  ".comments[] | select(.body | startswith(\"" ++ marker ++ "\")) | .url"

/-- The comment-lookup invocation. -/
def viewCall (prNumber heading : String) : GhCall :=
  ⟨.view,
   ["gh", "pr", "view", prNumber, "--json", "comments",
    "--jq", jqFilter (commentMarker heading)],
   15⟩

/-- The comment-update invocation (the f-string's doubled braces are the
literal `{owner}`/`{repo}` placeholders that `gh api` expands). -/
def patchCall (commentId body : String) : GhCall :=
  ⟨.patch,
   ["gh", "api",
    "repos/\x7bowner\x7d/\x7brepo\x7d/issues/comments/" ++ commentId,
    "-X", "PATCH", "-f", "body=" ++ body],
   15⟩

/-- The comment-creation invocation. -/
def commentCall (prNumber body : String) : GhCall :=
  ⟨.comment, ["gh", "pr", "comment", prNumber, "--body", body], 15⟩

/-- `existing_url.rstrip("/").split("/")[-1]`. -/
def commentIdOf (existingUrl : String) : String :=
  (pySplit (pyRstripSlashes existingUrl) '/').getLastD ""

/-- Sink 4, PR comment sync, as the list of `gh` calls attempted inside the
`try` block: the lookup always runs first; if it raises, the exception is
caught and nothing else runs; otherwise its stdout selects update vs
create. The results of the second call (and any exception it raises) are
discarded by the surrounding `except: pass`. -/
def prSink (gh : GhEnv) (prNumber heading : String)
    (failures : List FailureRecord) : List GhCall :=
  let body := prBody heading failures
  match gh.view with
  | .exc => [viewCall prNumber heading]
  | .ok out =>
    let stripped := pyStrip out
    let existingUrl :=
      if stripped = "" then "" else (pySplit stripped '\n').headD ""
    if existingUrl ≠ "" then
      [viewCall prNumber heading, patchCall (commentIdOf existingUrl) body]
    else
      [viewCall prNumber heading, commentCall prNumber body]

/-! ### The `main` function -/

/-- How the process terminates: a normal exit code, or an uncaught
`xml.etree.ElementTree.ParseError` (traceback, non-zero status). -/
inductive Status where
  | exitCode (n : Nat)
  | parseError
deriving Repr, DecidableEq

/-- The observable outputs of one invocation: `print` payloads on stdout,
payloads on stderr, the text appended to the summary file (`none` when the
file is never opened), and the attempted `gh` calls. -/
structure Output where
  stdoutParts : List String
  stderrParts : List String
  summaryWrite : Option String
  ghCalls : List GhCall
deriving Repr, DecidableEq

def emptyOutput : Output := ⟨[], [], none, []⟩

/-- The state of the report file at `xml_path`: absent, present but
malformed, or present and parsed to a root element. -/
inductive FileState where
  | missing
  | malformed
  | parsed (root : Elem)

/-- One invocation's environment: `sys.argv[1:]`, the report file's state,
`GITHUB_STEP_SUMMARY` and `PR_NUMBER` (`""` when unset, as
`os.environ.get(_, "")` yields), and the subprocess world. -/
structure Env where
  argv : List String
  file : FileState
  githubStepSummary : String
  prNumber : String
  gh : GhEnv

/-- The script's `main`, as a function from the environment to the final
status and observable outputs. Mirrors the control flow: usage check,
silent return on a missing file, parse, extract, early return on zero
failures, the four sinks in order, the early return that skips both the PR
sink and the final `sys.exit(1)` when `PR_NUMBER` is empty. -/
def main (env : Env) : Status × Output :=
  match env.argv with
  | [] =>
    (.exitCode 1,
     { emptyOutput with
       stderrParts := ["Usage: junit-report.py <junit.xml> [heading]"] })
  | _xmlPath :: rest =>
    let heading := rest.headD "Test Failures"
    match env.file with
    | .missing => (.exitCode 0, emptyOutput)
    | .malformed => (.parseError, emptyOutput)
    | .parsed root =>
      let failures := extract root
      if failures.isEmpty then (.exitCode 0, emptyOutput)
      else
        let stdout := consoleLines heading failures ++ annotationLines failures
        let summary :=
          if env.githubStepSummary ≠ "" then
            some (summaryContent heading failures)
          else none
        if env.prNumber = "" then
          (.exitCode 0, ⟨stdout, [], summary, []⟩)
        else
          (.exitCode 1,
           ⟨stdout, [], summary, prSink env.gh env.prNumber heading failures⟩)

/-! ## Supporting lemmas -/

theorem length_filterMap_eq_countP {α β : Type} (f : α → Option β) :
    ∀ l : List α, (l.filterMap f).length = l.countP (fun a => (f a).isSome) := by
  intro l
  induction l with
  | nil => rfl
  | cons a l ih =>
    rw [List.filterMap_cons, List.countP_cons]
    cases h : f a with
    | none => simp [h, ih]
    | some b => simp [h, ih, Nat.add_comm]

theorem iterTag_mk (t tag : String) (attrs : List (String × String))
    (text : Option String) (children : List Elem) :
    iterTag t (.mk tag attrs text children) =
      (if tag = t then [Elem.mk tag attrs text children] else []) ++
        iterTagList t children := by
  rw [iterTag]

theorem iterTagList_cons (t : String) (c : Elem) (cs : List Elem) :
    iterTagList t (c :: cs) = iterTag t c ++ iterTagList t cs := by
  rw [iterTagList]

mutual
/-- Under subtree well-formedness, the number of failure elements in a
subtree is one for the subtree root if it is itself a failure marker, plus
one for each test-case element having a failure child. -/
theorem wfAux_count : ∀ (e : Elem), junitWFAux e = true →
    (iterTag "failure" e).length =
      (if e.tag = "failure" then 1 else 0) +
        (iterTag "testcase" e).countP (fun tc => (findChild "failure" tc).isSome)
  | .mk t a x cs => fun h => by
    rw [junitWFAux] at h
    have hcs : junitWFList cs = true := (Bool.and_eq_true_iff.mp h).2
    have hhead := (Bool.and_eq_true_iff.mp h).1
    have ih := wfList_count cs hcs
    rw [iterTag_mk, iterTag_mk, List.length_append, List.countP_append, ih]
    have hiff : (findChild "failure" (Elem.mk t a x cs)).isSome = true ↔
        0 < cs.countP (fun c => c.tag = "failure") := by
      simp only [findChild, Elem.children, List.find?_isSome, List.countP_pos_iff]
    have hchild :
        cs.countP (fun c => c.tag = "failure") =
          (if t = "testcase" then
            (if (findChild "failure" (Elem.mk t a x cs)).isSome then 1 else 0)
           else 0) := by
      by_cases ht : t = "testcase"
      · rw [if_pos ht]
        rw [if_pos ht] at hhead
        have hle : cs.countP (fun c => c.tag = "failure") ≤ 1 := of_decide_eq_true hhead
        by_cases hs : (findChild "failure" (Elem.mk t a x cs)).isSome = true
        · rw [if_pos hs]
          have := hiff.mp hs
          omega
        · rw [if_neg hs]
          have : ¬ 0 < cs.countP (fun c => c.tag = "failure") :=
            fun hp => hs (hiff.mpr hp)
          omega
      · rw [if_neg ht]
        rw [if_neg ht] at hhead
        have hall : ∀ c ∈ cs, ¬((c.tag = "failure" : Bool) = true) := by
          intro c hc
          have := List.all_eq_true.mp hhead c hc
          simpa using this
        exact List.countP_eq_zero.mpr hall
    have htag : (Elem.mk t a x cs).tag = t := rfl
    rw [htag, hchild]
    by_cases htf : t = "failure"
    · have htc : ¬ t = "testcase" := by rw [htf]; intro hc; exact absurd hc (by decide)
      rw [if_pos htf, if_pos htf, if_neg htc, if_neg htc]
      simp
    · rw [if_neg htf, if_neg htf]
      by_cases htc : t = "testcase"
      · rw [if_pos htc, if_pos htc]
        simp only [List.length_nil, List.countP_cons, List.countP_nil]
        by_cases hs : (findChild "failure" (Elem.mk t a x cs)).isSome = true
        · rw [if_pos hs]
        · rw [if_neg hs]
      · rw [if_neg htc, if_neg htc]
        simp

theorem wfList_count : ∀ (l : List Elem), junitWFList l = true →
    (iterTagList "failure" l).length =
      l.countP (fun c => c.tag = "failure") +
        (iterTagList "testcase" l).countP (fun tc => (findChild "failure" tc).isSome)
  | [] => fun _ => by simp [iterTagList]
  | c :: cs => fun h => by
    rw [junitWFList] at h
    have h1 := wfAux_count c (Bool.and_eq_true_iff.mp h).1
    have h2 := wfList_count cs (Bool.and_eq_true_iff.mp h).2
    rw [iterTagList_cons, iterTagList_cons, List.length_append,
      List.countP_append, List.countP_cons, h1, h2]
    simp only [decide_eq_true_eq]
    omega
end

/-! ## Supporting lemmas on strings and the short-message loop -/

theorem string_take_length_le (s : String) (n : Nat) : (s.take n).length ≤ n := by
  show (s.take n).data.length ≤ n
  rw [String.data_take, List.length_take]
  exact Nat.min_le_left n s.data.length

theorem string_take_ne_empty {s : String} {n : Nat} (hn : 0 < n)
    (h : s ≠ "") : s.take n ≠ "" := by
  intro hc
  have hd : s.data.take n = [] := by
    have := congrArg String.data hc
    rwa [String.data_take] at this
  have hnil : s.data = [] := by
    cases hs : s.data with
    | nil => rfl
    | cons a l =>
      rw [hs] at hd
      cases n with
      | zero => exact absurd hn (by omega)
      | succ m => simp at hd
  exact h (String.ext hnil)

theorem qualifying_ne_empty {l : String} (h : qualifying l = true) : l ≠ "" := by
  rw [qualifying] at h
  simp only [Bool.and_eq_true, decide_eq_true_eq] at h
  exact h.1.1

theorem pyOr_some_of_ne (s : String) (b : Option String) (h : s ≠ "") :
    pyOr (some s) b = s := by
  simp [pyOr, truthy, h]

theorem pyOr_falsy_some_of_ne (a : Option String) (m : String)
    (ha : a = none ∨ a = some "") (hm : m ≠ "") :
    pyOr a (some m) = m := by
  rcases ha with ha | ha <;> subst ha <;> simp [pyOr, truthy, hm]

theorem pyOr_falsy_falsy (a b : Option String)
    (ha : a = none ∨ a = some "") (hb : b = none ∨ b = some "") :
    pyOr a b = "" := by
  rcases ha with ha | ha <;> rcases hb with hb | hb <;> subst ha <;> subst hb <;>
    simp [pyOr, truthy]

theorem shortOf_of_find {f : Elem} {detail l : String}
    (h : ((pySplit detail '\n').map pyStrip).find? qualifying = some l) :
    shortOf f detail = l.take 200 := by
  have hq : qualifying l = true := List.find?_some h
  have h1 : firstShort detail = l.take 200 := by rw [firstShort, h]
  have h2 : firstShort detail ≠ "" := by
    rw [h1]
    exact string_take_ne_empty (by omega) (qualifying_ne_empty hq)
  show (if firstShort detail = "" then (f.attr "message").getD "failed"
        else firstShort detail) = l.take 200
  rw [if_neg h2, h1]

theorem shortOf_of_find_none {f : Elem} {detail : String}
    (h : ((pySplit detail '\n').map pyStrip).find? qualifying = none) :
    shortOf f detail = (f.attr "message").getD "failed" := by
  have h1 : firstShort detail = "" := by rw [firstShort, h]
  show (if firstShort detail = "" then (f.attr "message").getD "failed"
        else firstShort detail) = _
  rw [if_pos h1]

theorem recordOf_detail (tc f : Elem) :
    (recordOf tc f).detail = pyStrip (pyOr f.text (f.attr "message")) := rfl

theorem recordOf_short (tc f : Elem) :
    (recordOf tc f).short = shortOf f (pyStrip (pyOr f.text (f.attr "message"))) :=
  rfl

/-! ## Claims -/

/-- C2: for every well-formed JUnit XML input containing N failure
elements, extraction produces exactly N FailureRecord entries, the list is
the in-document-order traversal of the test-case elements, and a record
exists iff its source test-case element has a failure child. -/
theorem C2_extraction_count_and_order (root : Elem) (h : junitWF root = true) :
    (extract root).length = (iterTag "failure" root).length ∧
    extract root = (iterTag "testcase" root).filterMap
        (fun tc => (findChild "failure" tc).map (recordOf tc)) ∧
    (∀ r ∈ extract root, ∃ tc ∈ iterTag "testcase" root, ∃ f,
        findChild "failure" tc = some f ∧ r = recordOf tc f) ∧
    (∀ tc ∈ iterTag "testcase" root, ∀ f, findChild "failure" tc = some f →
        recordOf tc f ∈ extract root) := by
  have hroot : ¬(root.tag = "failure") := by
    have := (Bool.and_eq_true_iff.mp h).1
    simpa using this
  have haux := wfAux_count root (Bool.and_eq_true_iff.mp h).2
  refine ⟨?_, rfl, ?_, ?_⟩
  · rw [extract, length_filterMap_eq_countP, haux, if_neg hroot]
    simp
  · intro r hr
    rw [extract, List.mem_filterMap] at hr
    obtain ⟨tc, htc, hmap⟩ := hr
    rw [Option.map_eq_some'] at hmap
    obtain ⟨f, hf, hrf⟩ := hmap
    exact ⟨tc, htc, f, hf, hrf.symm⟩
  · intro tc htc f hf
    rw [extract, List.mem_filterMap]
    exact ⟨tc, htc, by rw [hf]; rfl⟩

/-- A concrete two-test report (one passing, one failing test case) used to
instantiate `C2_extraction_count_and_order`. -/
def wRoot : Elem :=
  .mk "testsuite" [("name", "suite")] none
    [.mk "testcase" [("classname", "p"), ("name", "ok")] none [],
     .mk "testcase" [("classname", "p"), ("name", "bad")] none
       [.mk "failure" [("message", "oops")] none []]]

theorem C2_extraction_count_and_order_witness :
    junitWF wRoot = true ∧
    (extract wRoot).length = (iterTag "failure" wRoot).length :=
  ⟨by decide, (C2_extraction_count_and_order wRoot (by decide)).1⟩

/-- A 201-character message attribute. -/
def longMsg : String := String.mk (List.replicate 201 'a')

/-- A failure element whose body text consists only of a `=== RUN` line, so
the short-message loop finds no qualifying line and falls back to the
`message` attribute — which the code does not truncate. -/
def fC3 : Elem := .mk "failure" [("message", longMsg)] (some "=== RUN TestFoo") []

def tcC3 : Elem := .mk "testcase" [("classname", "p"), ("name", "t")] none [fC3]

def rootC3 : Elem := .mk "testsuite" [] none [tcC3]

/-- C3 counterexample: an extracted record whose short message is 201
characters long — the fallback to the `message` attribute is not
truncated to 200 characters. -/
theorem C3_counterexample : ∃ r ∈ extract rootC3, 200 < r.short.length := by
  decide

/-- C3 amended: the short message is at most 200 characters whenever the
short-message loop finds a qualifying line in the detail text (the
fallback to the `message` attribute is used untruncated and may be
longer); a single-line detail of 300 characters yields a short message of
exactly 200 characters. -/
theorem C3_short_message_bound :
    (∀ (f : Elem) (detail l : String),
        ((pySplit detail '\n').map pyStrip).find? qualifying = some l →
          (shortOf f detail).length ≤ 200) ∧
    (∀ tc f : Elem, f.text = some (String.mk (List.replicate 300 'a')) →
        (recordOf tc f).short.length = 200) := by
  constructor
  · intro f detail l h
    rw [shortOf_of_find h]
    exact string_take_length_le l 200
  · intro tc f h
    rw [recordOf_short, h,
      pyOr_some_of_ne _ _ (by decide)]
    have htrim : pyStrip (String.mk (List.replicate 300 'a')) =
        String.mk (List.replicate 300 'a') := by decide
    rw [htrim,
      shortOf_of_find (l := String.mk (List.replicate 300 'a')) (by decide)]
    decide

theorem C3_short_message_bound_witness :
    ((pySplit "err" '\n').map pyStrip).find? qualifying = some "err" ∧
    (shortOf (Elem.mk "failure" [] none []) "err").length ≤ 200 :=
  ⟨by decide,
   C3_short_message_bound.1 (Elem.mk "failure" [] none []) "err" "err"
     (by decide)⟩

/-- C4: the short message is the first line of the detail that, after
trimming, is non-empty and starts with neither `=== RUN` nor `--- FAIL`,
truncated to 200 characters; when no line qualifies it is the failure
element's `message` attribute, or `"failed"` when that attribute is
absent; the detail `"=== RUN foo\n\n  actual error here\nmore"` yields
`"actual error here"`. -/
theorem C4_short_message_derivation :
    (∀ (f : Elem) (detail l : String),
        ((pySplit detail '\n').map pyStrip).find? qualifying = some l →
          shortOf f detail = l.take 200) ∧
    (∀ (f : Elem) (detail : String),
        ((pySplit detail '\n').map pyStrip).find? qualifying = none →
          shortOf f detail = (f.attr "message").getD "failed") ∧
    (∀ tc f : Elem, f.text = some "=== RUN foo\n\n  actual error here\nmore" →
        (recordOf tc f).short = "actual error here") := by
  refine ⟨fun f detail l h => shortOf_of_find h,
          fun f detail h => shortOf_of_find_none h,
          fun tc f h => ?_⟩
  rw [recordOf_short, h, pyOr_some_of_ne _ _ (by decide)]
  have htrim : pyStrip "=== RUN foo\n\n  actual error here\nmore" =
      "=== RUN foo\n\n  actual error here\nmore" := by decide
  rw [htrim, shortOf_of_find (l := "actual error here") (by decide)]
  decide

theorem C4_short_message_derivation_witness :
    (Elem.text (.mk "failure" [] (some "=== RUN foo\n\n  actual error here\nmore") []) =
        some "=== RUN foo\n\n  actual error here\nmore") ∧
    (recordOf (.mk "testcase" [] none [])
        (.mk "failure" [] (some "=== RUN foo\n\n  actual error here\nmore") [])).short =
      "actual error here" :=
  ⟨rfl,
   C4_short_message_derivation.2.2 (.mk "testcase" [] none [])
     (.mk "failure" [] (some "=== RUN foo\n\n  actual error here\nmore") []) rfl⟩

/-- A failure element whose body text carries surrounding whitespace. -/
def fC5 : Elem := .mk "failure" [] (some "  boom  ") []

def tcC5 : Elem := .mk "testcase" [] none [fC5]

/-- C5 counterexample: the code stores the stripped body text as the full
detail, so a body of `"  boom  "` yields the detail `"boom"`, not the body
text itself. -/
theorem C5_counterexample :
    Elem.text fC5 = some "  boom  " ∧
    (recordOf tcC5 fC5).detail = "boom" ∧
    ("boom" : String) ≠ "  boom  " :=
  ⟨rfl, by decide, by decide⟩

/-- C5 amended: the full detail is the whitespace-stripped body text; when
the body text is absent or the empty string it is the stripped `message`
attribute; when that too is absent or empty it is the empty string. -/
theorem C5_full_detail_selection :
    (∀ (tc f : Elem) (s : String), f.text = some s → s ≠ "" →
        (recordOf tc f).detail = pyStrip s) ∧
    (∀ (tc f : Elem) (m : String), (f.text = none ∨ f.text = some "") →
        f.attr "message" = some m → m ≠ "" →
        (recordOf tc f).detail = pyStrip m) ∧
    (∀ tc f : Elem, (f.text = none ∨ f.text = some "") →
        (f.attr "message" = none ∨ f.attr "message" = some "") →
        (recordOf tc f).detail = "") := by
  refine ⟨?_, ?_, ?_⟩
  · intro tc f s h hs
    rw [recordOf_detail, h, pyOr_some_of_ne _ _ hs]
  · intro tc f m ht hm hmne
    rw [recordOf_detail, hm, pyOr_falsy_some_of_ne _ _ ht hmne]
  · intro tc f ht hm
    rw [recordOf_detail, pyOr_falsy_falsy _ _ ht hm]
    decide

theorem C5_full_detail_selection_witness :
    (Elem.text (.mk "failure" [] (some " x ") []) = some " x ") ∧
    (" x " : String) ≠ "" ∧
    (recordOf (.mk "testcase" [] none []) (.mk "failure" [] (some " x ") [])).detail =
      pyStrip " x " :=
  ⟨rfl, by decide,
   C5_full_detail_selection.1 (.mk "testcase" [] none [])
     (.mk "failure" [] (some " x ") []) " x " rfl (by decide)⟩

/-- C10: extraction is total over any element shape — a test case missing
`classname` or `name` yields empty-string fields, a failure element with
neither body text nor `message` attribute yields an empty detail and the
short message `"failed"`, and the loop emits at most one record per
test-case element. -/
theorem C10_extraction_total :
    (∀ root : Elem, (extract root).length ≤ (iterTag "testcase" root).length) ∧
    (∀ tc f : Elem, tc.attr "classname" = none → (recordOf tc f).pkg = "") ∧
    (∀ tc f : Elem, tc.attr "name" = none → (recordOf tc f).name = "") ∧
    (∀ tc f : Elem, f.text = none → f.attr "message" = none →
        (recordOf tc f).detail = "" ∧ (recordOf tc f).short = "failed") := by
  refine ⟨?_, ?_, ?_, ?_⟩
  · intro root
    rw [extract]
    exact List.length_filterMap_le _ _
  · intro tc f h
    show ((tc.attr "classname").getD "") = ""
    rw [h]
    rfl
  · intro tc f h
    show ((tc.attr "name").getD "") = ""
    rw [h]
    rfl
  · intro tc f ht hm
    have hd : (recordOf tc f).detail = "" := by
      rw [recordOf_detail, ht, hm]
      decide
    refine ⟨hd, ?_⟩
    rw [recordOf_short, ht, hm]
    have hz : pyStrip (pyOr none none) = "" := by decide
    rw [hz]
    show (if firstShort "" = "" then (f.attr "message").getD "failed"
          else firstShort "") = "failed"
    rw [if_pos (by decide), hm]
    rfl

theorem C10_extraction_total_witness :
    (Elem.attr (.mk "testcase" [] none []) "classname" = none) ∧
    (recordOf (.mk "testcase" [] none []) (.mk "failure" [] none [])).pkg = "" ∧
    (recordOf (.mk "testcase" [] none []) (.mk "failure" [] none [])).short =
      "failed" :=
  ⟨rfl,
   C10_extraction_total.2.1 (.mk "testcase" [] none [])
     (.mk "failure" [] none []) rfl,
   (C10_extraction_total.2.2.2 (.mk "testcase" [] none [])
     (.mk "failure" [] none []) rfl rfl).2⟩

/-- C7: a missing report file makes the whole invocation a silent
successful no-op; a present but malformed file makes the parse error
propagate. -/
theorem C7_missing_vs_malformed (env : Env) (p : String) (rest : List String)
    (h : env.argv = p :: rest) :
    (env.file = FileState.missing → main env = (.exitCode 0, emptyOutput)) ∧
    (env.file = FileState.malformed → main env = (.parseError, emptyOutput)) := by
  obtain ⟨argv, file, gss, pr, gh⟩ := env
  simp only at h
  subst h
  constructor
  · intro hf
    simp only at hf
    subst hf
    rfl
  · intro hf
    simp only at hf
    subst hf
    rfl

def envC7 : Env := ⟨["junit.xml"], .missing, "", "", ⟨.ok "", .ok "", .ok ""⟩⟩

theorem C7_missing_vs_malformed_witness :
    (Env.argv envC7 = "junit.xml" :: []) ∧
    (Env.file envC7 = FileState.missing) ∧
    main envC7 = (.exitCode 0, emptyOutput) :=
  ⟨rfl, rfl, (C7_missing_vs_malformed envC7 "junit.xml" [] rfl).1 rfl⟩

/-- Unfolding of `main` on a parsed file with at least one failure. -/
theorem main_parsed (p : String) (rest : List String) (root : Elem)
    (gss pr : String) (gh : GhEnv) (hne : extract root ≠ []) :
    main ⟨p :: rest, .parsed root, gss, pr, gh⟩ =
      ((if pr = "" then Status.exitCode 0 else Status.exitCode 1),
       ⟨consoleLines (rest.headD "Test Failures") (extract root) ++
          annotationLines (extract root),
        [],
        (if gss ≠ "" then
          some (summaryContent (rest.headD "Test Failures") (extract root))
         else none),
        (if pr = "" then []
         else prSink gh pr (rest.headD "Test Failures") (extract root))⟩) := by
  have hb : (extract root).isEmpty = false := by
    cases hx : extract root with
    | nil => exact absurd hx hne
    | cons a l => rfl
  rw [main]
  simp only [hb]
  by_cases hpr : pr = "" <;> simp [hpr]

theorem main_parsed_empty (p : String) (rest : List String) (root : Elem)
    (gss pr : String) (gh : GhEnv) (he : extract root = []) :
    main ⟨p :: rest, .parsed root, gss, pr, gh⟩ = (.exitCode 0, emptyOutput) := by
  rw [main]
  simp [he]

/-- C6: the annotation sink prints exactly one line per failure record, in
the fixed `::error` format whose title is `FAIL <package>.<name>` and
whose body is the record's short message; in `main` these lines follow the
console block on stdout. -/
theorem C6_annotation_sink :
    (∀ failures : List FailureRecord,
        (annotationLines failures).length = failures.length) ∧
    (∀ (failures : List FailureRecord) (i : Nat) (r : FailureRecord),
        failures[i]? = some r →
          (annotationLines failures)[i]? =
            some ("::error title=FAIL " ++ r.pkg ++ "." ++ r.name ++ "::" ++
              r.short)) ∧
    (∀ (env : Env) (p : String) (rest : List String) (root : Elem),
        env.argv = p :: rest → env.file = .parsed root → extract root ≠ [] →
          (main env).2.stdoutParts =
            consoleLines (rest.headD "Test Failures") (extract root) ++
              annotationLines (extract root)) := by
  refine ⟨fun fs => List.length_map fs _, ?_, ?_⟩
  · intro fs i r h
    rw [annotationLines, List.getElem?_map, h]
    rfl
  · intro env p rest root ha hf hne
    obtain ⟨argv, file, gss, pr, gh⟩ := env
    simp only at ha hf
    subst ha
    subst hf
    rw [main_parsed p rest root gss pr gh hne]

def rootC6 : Elem :=
  .mk "testsuite" [] none
    [.mk "testcase" [("classname", "pkg.A"), ("name", "testX")] none
      [.mk "failure" [("message", "assertion failed")] none []]]

def envC6 : Env := ⟨["junit.xml"], .parsed rootC6, "", "", ⟨.ok "", .ok "", .ok ""⟩⟩

theorem C6_annotation_sink_witness :
    ((extract rootC6)[0]? =
      some ⟨"pkg.A", "testX", "assertion failed", "assertion failed"⟩) ∧
    ((annotationLines (extract rootC6))[0]? =
      some ("::error title=FAIL " ++ "pkg.A" ++ "." ++ "testX" ++ "::" ++
        "assertion failed")) ∧
    (Env.argv envC6 = "junit.xml" :: []) ∧ extract rootC6 ≠ [] ∧
    (main envC6).2.stdoutParts =
      consoleLines (([] : List String).headD "Test Failures") (extract rootC6) ++
        annotationLines (extract rootC6) :=
  ⟨by decide,
   C6_annotation_sink.2.1 (extract rootC6) 0
     ⟨"pkg.A", "testX", "assertion failed", "assertion failed"⟩ (by decide),
   rfl, by decide,
   C6_annotation_sink.2.2 envC6 "junit.xml" [] rootC6 rfl rfl (by decide)⟩

/-- C9: when a summary path is configured the summary sink appends the
Markdown heading plus the Package/Test/Error table with exactly one row
per record, `|` in the error text escaped as `\|`; when no summary path is
configured it writes nothing. -/
theorem C9_summary_sink :
    (∀ (env : Env) (p : String) (rest : List String) (root : Elem),
        env.argv = p :: rest → env.file = .parsed root → extract root ≠ [] →
        ((env.githubStepSummary ≠ "" →
          (main env).2.summaryWrite =
            some ("## " ++ rest.headD "Test Failures" ++ "\n\n" ++
              "| Package | Test | Error |\n" ++
              "|---------|------|-------|\n" ++
              String.join ((extract root).map (fun r =>
                "| `" ++ r.pkg ++ "` | `" ++ r.name ++ "` | " ++
                  escapePipes r.short ++ " |" ++ "\n")))) ∧
        (env.githubStepSummary = "" → (main env).2.summaryWrite = none))) ∧
    (∀ failures : List FailureRecord,
        (failures.map (fun r => tableRow r ++ "\n")).length = failures.length) ∧
    escapePipes "a|b" = "a\\|b" := by
  refine ⟨?_, fun fs => List.length_map fs _, by decide⟩
  intro env p rest root ha hf hne
  obtain ⟨argv, file, gss, pr, gh⟩ := env
  simp only at ha hf ⊢
  subst ha
  subst hf
  rw [main_parsed p rest root gss pr gh hne]
  constructor
  · intro hgss
    simp only [if_pos hgss]
    rfl
  · intro hgss
    simp [hgss]

def envC9 : Env :=
  ⟨["junit.xml", "My Heading"], .parsed rootC6, "/tmp/summary.md", "",
   ⟨.ok "", .ok "", .ok ""⟩⟩

theorem C9_summary_sink_witness :
    (Env.argv envC9 = "junit.xml" :: ["My Heading"]) ∧ extract rootC6 ≠ [] ∧
    (Env.githubStepSummary envC9 ≠ "") ∧
    (main envC9).2.summaryWrite =
      some ("## " ++ ["My Heading"].headD "Test Failures" ++ "\n\n" ++
        "| Package | Test | Error |\n" ++
        "|---------|------|-------|\n" ++
        String.join ((extract rootC6).map (fun r =>
          "| `" ++ r.pkg ++ "` | `" ++ r.name ++ "` | " ++
            escapePipes r.short ++ " |" ++ "\n"))) :=
  ⟨rfl, by decide, by decide,
   ((C9_summary_sink.1 envC9 "junit.xml" ["My Heading"] rootC6 rfl rfl
      (by decide)).1 (by decide))⟩

/-- C8: the PR-comment sink is skipped entirely when no PR number is
configured; the subprocess world can never change the exit status, the
printed output or the summary write (every failure inside the sink is
swallowed); at most two CLI invocations are attempted, each kind at most
once, each with timeout 15, with no retries. -/
theorem C8_pr_comment_best_effort :
    (∀ env : Env, env.prNumber = "" → (main env).2.ghCalls = []) ∧
    (∀ (env : Env) (gh1 gh2 : GhEnv),
        (main { env with gh := gh1 }).1 = (main { env with gh := gh2 }).1 ∧
        (main { env with gh := gh1 }).2.stdoutParts =
          (main { env with gh := gh2 }).2.stdoutParts ∧
        (main { env with gh := gh1 }).2.summaryWrite =
          (main { env with gh := gh2 }).2.summaryWrite) ∧
    (∀ (gh : GhEnv) (prNumber heading : String)
        (failures : List FailureRecord),
        (prSink gh prNumber heading failures).countP
            (fun c => c.kind = .view) ≤ 1 ∧
        (prSink gh prNumber heading failures).countP
            (fun c => c.kind = .patch) ≤ 1 ∧
        (prSink gh prNumber heading failures).countP
            (fun c => c.kind = .comment) ≤ 1 ∧
        (prSink gh prNumber heading failures).length ≤ 2 ∧
        ∀ c ∈ prSink gh prNumber heading failures, c.timeout = 15) := by
  refine ⟨?_, ?_, ?_⟩
  · intro env hpr
    obtain ⟨argv, file, gss, pr, gh⟩ := env
    simp only at hpr
    subst hpr
    cases argv with
    | nil => rfl
    | cons p rest =>
      cases file with
      | missing => rfl
      | malformed => rfl
      | parsed root =>
        cases hx : extract root with
        | nil =>
          rw [main_parsed_empty p rest root gss "" gh hx]
          rfl
        | cons a l =>
          rw [main_parsed p rest root gss "" gh (by rw [hx]; simp)]
          simp
  · intro env gh1 gh2
    obtain ⟨argv, file, gss, pr, gh⟩ := env
    cases argv with
    | nil => exact ⟨rfl, rfl, rfl⟩
    | cons p rest =>
      cases file with
      | missing => exact ⟨rfl, rfl, rfl⟩
      | malformed => exact ⟨rfl, rfl, rfl⟩
      | parsed root =>
        cases hx : extract root with
        | nil =>
          rw [show ({ Env.mk (p :: rest) (.parsed root) gss pr gh with gh := gh1 } : Env) =
                ⟨p :: rest, .parsed root, gss, pr, gh1⟩ from rfl,
              show ({ Env.mk (p :: rest) (.parsed root) gss pr gh with gh := gh2 } : Env) =
                ⟨p :: rest, .parsed root, gss, pr, gh2⟩ from rfl,
              main_parsed_empty p rest root gss pr gh1 hx,
              main_parsed_empty p rest root gss pr gh2 hx]
          exact ⟨rfl, rfl, rfl⟩
        | cons a l =>
          have hne : extract root ≠ [] := by rw [hx]; simp
          rw [show ({ Env.mk (p :: rest) (.parsed root) gss pr gh with gh := gh1 } : Env) =
                ⟨p :: rest, .parsed root, gss, pr, gh1⟩ from rfl,
              show ({ Env.mk (p :: rest) (.parsed root) gss pr gh with gh := gh2 } : Env) =
                ⟨p :: rest, .parsed root, gss, pr, gh2⟩ from rfl,
              main_parsed p rest root gss pr gh1 hne,
              main_parsed p rest root gss pr gh2 hne]
          exact ⟨rfl, rfl, rfl⟩
  · intro gh prNumber heading failures
    obtain ⟨v, vp, vc⟩ := gh
    have hcases :
        prSink ⟨v, vp, vc⟩ prNumber heading failures =
            [viewCall prNumber heading] ∨
        (∃ cid, prSink ⟨v, vp, vc⟩ prNumber heading failures =
            [viewCall prNumber heading,
             patchCall cid (prBody heading failures)]) ∨
        prSink ⟨v, vp, vc⟩ prNumber heading failures =
            [viewCall prNumber heading,
             commentCall prNumber (prBody heading failures)] := by
      cases v with
      | exc => exact Or.inl rfl
      | ok out =>
        rw [show prSink ⟨.ok out, vp, vc⟩ prNumber heading failures =
            (if (if pyStrip out = "" then ""
                 else (pySplit (pyStrip out) '\n').headD "") ≠ "" then
               [viewCall prNumber heading,
                patchCall (commentIdOf (if pyStrip out = "" then ""
                  else (pySplit (pyStrip out) '\n').headD ""))
                  (prBody heading failures)]
             else
               [viewCall prNumber heading,
                commentCall prNumber (prBody heading failures)]) from rfl]
        by_cases hu : (if pyStrip out = "" then ""
            else (pySplit (pyStrip out) '\n').headD "") ≠ ""
        · rw [if_pos hu]
          exact Or.inr (Or.inl ⟨_, rfl⟩)
        · rw [if_neg hu]
          exact Or.inr (Or.inr rfl)
    rcases hcases with h | ⟨cid, h⟩ | h <;> rw [h] <;>
      refine ⟨?_, ?_, ?_, ?_, ?_⟩ <;>
      simp [viewCall, patchCall, commentCall, List.countP_cons,
        List.countP_nil, GhCall.kind, GhCall.timeout]

def envC8 : Env := ⟨["junit.xml"], .parsed rootC6, "", "", ⟨.exc, .exc, .exc⟩⟩

theorem C8_pr_comment_best_effort_witness :
    (Env.prNumber envC8 = "") ∧ (main envC8).2.ghCalls = [] ∧
    (main { envC8 with gh := ⟨.ok "url", .ok "", .ok ""⟩ }).1 =
      (main { envC8 with gh := ⟨.exc, .exc, .exc⟩ }).1 ∧
    (prSink ⟨.ok "", .ok "", .ok ""⟩ "7" "Test Failures"
        (extract rootC6)).length ≤ 2 :=
  ⟨rfl, C8_pr_comment_best_effort.1 envC8 rfl,
   (C8_pr_comment_best_effort.2.1 envC8 ⟨.ok "url", .ok "", .ok ""⟩
      ⟨.exc, .exc, .exc⟩).1,
   (C8_pr_comment_best_effort.2.2 ⟨.ok "", .ok "", .ok ""⟩ "7" "Test Failures"
      (extract rootC6)).2.2.2.1⟩

/-- One failing test case, `PR_NUMBER` unset. -/
def envC1 : Env := ⟨["junit.xml", "Go Tests"], .parsed rootC6, "", "",
  ⟨.ok "", .ok "", .ok ""⟩⟩

/-- A report whose only test case passes. -/
def rootC1ok : Elem :=
  .mk "testsuite" [] none
    [.mk "testcase" [("classname", "pkg.A"), ("name", "testX")] none []]

def envC1ok : Env := ⟨["junit.xml", "Go Tests"], .parsed rootC1ok, "", "",
  ⟨.ok "", .ok "", .ok ""⟩⟩

/-- C1: the code contradicts the claim. With one extracted failure and
`PR_NUMBER` empty, `main` returns before reaching `sys.exit(1)`, so the
process exits 0; with a PR number configured the same report exits 1; with
zero failures the process exits 0 as the claim says. -/
theorem C1_exit_status_bug :
    (extract rootC6).length = 1 ∧
    (main envC1).1 = .exitCode 0 ∧
    (main { envC1 with prNumber := "7" }).1 = .exitCode 1 ∧
    extract rootC1ok = [] ∧
    main envC1ok = (.exitCode 0, emptyOutput) :=
  ⟨by decide, by decide, by decide, by decide, by decide⟩

end JunitReport
